import Mathlib

/-!
Verification of the memory-card e-commerce backend specification against a
shallow embedding of the backend source (src/backend/app).

Conventions of the embedding:
* SQL rows become Lean structures; the database becomes an explicit `DB`
  record of row lists.
* Python money `float`s backed by `Numeric(10,2)` columns become `ℚ`;
  `round(x, 2)` becomes `round2` (round half to even, Python's rule).
* `async` methods become pure functions threading the `DB`; a raised
  exception becomes the `.error` branch of `Except String`.
* A SQLAlchemy transaction (`async with session.begin()`) becomes a match on
  the body's `Except` result that restores the entry state on `.error`.
* Timestamps (`datetime.now`) are abstract and passed in as a `now : ℕ`.
-/

namespace GameStore

/-- Round half to even to an integer, the rule Python's builtin `round`
implements (over exact numbers; we embed `Numeric(10,2)` columns in `ℚ`). -/
def roundHalfEven (q : ℚ) : ℤ :=
  let f : ℤ := ⌊q⌋
  let frac : ℚ := q - (f : ℚ)
  if frac < 1/2 then f
  else if 1/2 < frac then f + 1
  else if f % 2 = 0 then f else f + 1

/-- Python's `round(x, 2)`. -/
def round2 (q : ℚ) : ℚ := (roundHalfEven (q * 100) : ℚ) / 100

/-- Embeds `models/order.py`: `OrderStatus` enum. -/
inductive OrderStatus where
  | pending
  | paid
  | completed
  | cancelled
deriving DecidableEq, Repr

/-- Embeds `models/game_catalog.py`: a `game_catalog` row. `price` is a
`Numeric(10,2)` column, `stock` a plain SQL `Integer` (hence `ℤ`). -/
structure Game where
  id : ℕ
  rawg_id : ℕ
  title : String
  slug : String
  description : Option String
  image_url : Option String
  price : ℚ
  stock : ℤ
deriving DecidableEq, Repr

/-- Embeds `models/cart.py`: a `cart_items` row. The schema layer
(`schemas/cart.py`) validates `quantity ≥ 1`, so quantities are `ℕ`. -/
structure CartItem where
  id : ℕ
  cart_id : ℕ
  game_id : ℕ
  quantity : ℕ
deriving DecidableEq, Repr

/-- Embeds `models/cart.py`: a `carts` row together with its eagerly loaded
`items` relationship. -/
structure Cart where
  id : ℕ
  user_id : ℕ
  items : List CartItem
deriving DecidableEq, Repr

/-- Embeds `models/order.py`: an `order_items` row (purchase-time snapshot). -/
structure OrderItem where
  id : ℕ
  order_id : ℕ
  game_id : ℕ
  quantity : ℕ
  unit_price : ℚ
  subtotal : ℚ
deriving DecidableEq, Repr

/-- Embeds `models/order.py`: an `orders` row with its loaded `items`. -/
structure Order where
  id : ℕ
  user_id : ℕ
  subtotal : ℚ
  tax : ℚ
  total : ℚ
  status : OrderStatus
  stripe_payment_intent_id : Option String
  created_at : ℕ
  completed_at : Option ℕ
  items : List OrderItem
deriving DecidableEq, Repr

/-- The database state visible to the repositories. -/
structure DB where
  games : List Game
  carts : List Cart
  orders : List Order
  nextOrderId : ℕ
  nextOrderItemId : ℕ
deriving DecidableEq, Repr

/-- Embeds `PostgresGameCatalogRepository.get_by_id` / `db.get(GameCatalog, id)`. -/
def findGame (db : DB) (game_id : ℕ) : Option Game :=
  db.games.find? (fun g => g.id == game_id)

/-- Embeds `select(Cart).where(Cart.user_id == user_id)` (one cart per user). -/
def findCart (db : DB) (user_id : ℕ) : Option Cart :=
  db.carts.find? (fun c => c.user_id == user_id)

/-- Embeds `PostgresOrderRepository.get_by_id`. -/
def findOrder (db : DB) (order_id : ℕ) : Option Order :=
  db.orders.find? (fun o => o.id == order_id)

/-- Persist a mutated, already-loaded game row (the ORM writes the mutation
back to the row with that id on flush/commit). -/
def updateGame (db : DB) (g : Game) : DB :=
  { db with games := db.games.map (fun x => if x.id == g.id then g else x) }

/-- Persist a mutated, already-loaded order row. -/
def updateOrder (db : DB) (o : Order) : DB :=
  { db with orders := db.orders.map (fun x => if x.id == o.id then o else x) }

/-- Embeds `PostgresGameCatalogRepository.reduce_stock`: `None` when the product
does not exist, `ValueError` when `stock < quantity`, otherwise decrement. -/
def reduce_stock (db : DB) (game_id : ℕ) (quantity : ℕ) :
    Except String (DB × Option Game) :=
  match findGame db game_id with
  | none => .ok (db, none)
  | some game =>
      if game.stock < (quantity : ℤ) then
        .error ("Stock insuficiente para " ++ game.title ++ ". Disponible: "
          ++ toString game.stock ++ ", Solicitado: " ++ toString quantity)
      else
        let game' := { game with stock := game.stock - (quantity : ℤ) }
        .ok (updateGame db game', some game')

/-- Embeds `PostgresGameCatalogRepository.increase_stock`: `None` when the product
does not exist, otherwise increment (no other failure mode). -/
def increase_stock (db : DB) (game_id : ℕ) (quantity : ℕ) :
    DB × Option Game :=
  match findGame db game_id with
  | none => (db, none)
  | some game =>
      let game' := { game with stock := game.stock + (quantity : ℤ) }
      (updateGame db game', some game')

/-- Embeds `PostgresCartRepository.clear_cart`: delete every item of the user's
cart; a missing cart is a no-op. -/
def clear_cart (db : DB) (user_id : ℕ) : DB :=
  match findCart db user_id with
  | none => db
  | some _ =>
      { db with carts := db.carts.map (fun c =>
          if c.user_id == user_id then { c with items := [] } else c) }

/-- Embeds `crud/order_repository.py`: `TAX_RATE = 0.10`. -/
def TAX_RATE : ℚ := 1/10

/-- The order-item snapshots `PostgresOrderRepository.create_from_cart`
builds in its second loop: `unit_price = float(item.game.price)`,
`subtotal = item.quantity * unit_price`. Each `item.game` attribute access
requires the game row to exist (otherwise the ORM raises, which aborts the
enclosing transaction). -/
def mkOrderItems (db : DB) (orderId : ℕ) :
    (baseId : ℕ) → List CartItem → Except String (List OrderItem)
  | _, [] => .ok []
  | baseId, item :: rest =>
      match findGame db item.game_id with
      | none => .error ("missing game " ++ toString item.game_id)
      | some g =>
          match mkOrderItems db orderId (baseId + 1) rest with
          | .error e => .error e
          | .ok tail =>
              .ok ({ id := baseId, order_id := orderId, game_id := item.game_id,
                     quantity := item.quantity, unit_price := g.price,
                     subtotal := (item.quantity : ℚ) * g.price } :: tail)

/-- The first loop of `create_from_cart`: accumulate
`line_subtotal = item.quantity * float(item.game.price)` into `subtotal`
and `line_subtotal * TAX_RATE` into `tax`. -/
def lineTotals (db : DB) : List CartItem → Except String (ℚ × ℚ)
  | [] => .ok (0, 0)
  | item :: rest =>
      match findGame db item.game_id with
      | none => .error ("missing game " ++ toString item.game_id)
      | some g =>
          match lineTotals db rest with
          | .error e => .error e
          | .ok (s, t) =>
              let line_subtotal := (item.quantity : ℚ) * g.price
              .ok (line_subtotal + s, line_subtotal * TAX_RATE + t)

/-- Embeds `PostgresOrderRepository.create_from_cart`: compute
`subtotal = round(Σ line, 2)`, `tax = round(Σ line * TAX_RATE, 2)`,
`total = subtotal + tax` (no further rounding), then insert the order row
(status `PENDING`, fresh id) and one snapshot item row per cart line. -/
def create_from_cart (db : DB) (user_id : ℕ) (cart_items : List CartItem)
    (stripe_payment_intent_id : Option String) (now : ℕ) :
    Except String (DB × Order) :=
  match lineTotals db cart_items with
  | .error e => .error e
  | .ok (subtotalRaw, taxRaw) =>
      let subtotal := round2 subtotalRaw
      let tax := round2 taxRaw
      let total := subtotal + tax
      let orderId := db.nextOrderId
      match mkOrderItems db orderId db.nextOrderItemId cart_items with
      | .error e => .error e
      | .ok items =>
          let order : Order :=
            { id := orderId, user_id := user_id, subtotal := subtotal,
              tax := tax, total := total, status := OrderStatus.pending,
              stripe_payment_intent_id := stripe_payment_intent_id,
              created_at := now, completed_at := none, items := items }
          let db' : DB :=
            { db with
                orders := db.orders ++ [order],
                nextOrderId := db.nextOrderId + 1,
                nextOrderItemId := db.nextOrderItemId + cart_items.length }
          .ok (db', order)

/-- Embeds `PostgresOrderRepository.update_status`: load the order, assign the new
status, and — whenever the new status is `COMPLETED` — unconditionally
assign `completed_at = datetime.now(timezone.utc)` (the assignment is not
guarded on `completed_at` being unset). -/
def update_status (db : DB) (order_id : ℕ) (status : OrderStatus) (now : ℕ) :
    DB × Option Order :=
  match findOrder db order_id with
  | none => (db, none)
  | some o =>
      let o' : Order :=
        { o with
            status := status,
            completed_at :=
              if status = OrderStatus.completed then some now
              else o.completed_at }
      (updateOrder db o', some o')

/-- Embeds `FakeOrderRepository.update_status` (`tests/fakes.py`), the in-memory
implementation the test suite runs against: it guards the timestamp with
`if status == OrderStatus.COMPLETED and order.completed_at is None`. -/
def update_status_fake (db : DB) (order_id : ℕ) (status : OrderStatus)
    (now : ℕ) : DB × Option Order :=
  match findOrder db order_id with
  | none => (db, none)
  | some o =>
      let o' : Order :=
        { o with
            status := status,
            completed_at :=
              if status = OrderStatus.completed ∧ o.completed_at = none
              then some now else o.completed_at }
      (updateOrder db o', some o')

/-- The stock-validation loop of `OrderService.create_order_from_cart`:
for each cart line, `item.game.stock < item.quantity` raises `ValueError`
naming the product. The `item.game` attribute access again needs the row. -/
def validateStock (db : DB) : List CartItem → Except String Unit
  | [] => .ok ()
  | item :: rest =>
      match findGame db item.game_id with
      | none => .error ("missing game " ++ toString item.game_id)
      | some g =>
          if g.stock < (item.quantity : ℤ) then
            .error ("Stock insuficiente para " ++ g.title ++ ". Disponible: "
              ++ toString g.stock ++ ", En carrito: " ++ toString item.quantity)
          else validateStock db rest

/-- The stock-reduction loop of `OrderService.create_order_from_cart`:
`game_repo.reduce_stock` for every cart line, within the transaction. -/
def reduceAll : DB → List CartItem → Except String DB
  | db, [] => .ok db
  | db, item :: rest =>
      match reduce_stock db item.game_id item.quantity with
      | .error e => .error e
      | .ok (db', _) => reduceAll db' rest

/-- The body of the `async with transaction_ctx` block of
`OrderService.create_order_from_cart` (steps 1-5): locked cart read,
empty-cart check, stock validation, order creation, stock reduction, cart
clearing. Any `.error` is a raised exception inside the transaction. -/
def checkoutSteps (db : DB) (user_id : ℕ)
    (stripe_payment_intent_id : Option String) (now : ℕ) :
    Except String (DB × Order) :=
  match findCart db user_id with
  | none => .error ("El carrito está vacío")
  | some cart =>
      if cart.items.isEmpty then .error ("El carrito está vacío")
      else
        match validateStock db cart.items with
        | .error e => .error e
        | .ok _ =>
            match create_from_cart db user_id cart.items
                stripe_payment_intent_id now with
            | .error e => .error e
            | .ok (db1, order) =>
                match reduceAll db1 cart.items with
                | .error e => .error e
                | .ok db2 => .ok (clear_cart db2 user_id, order)

/-- Embeds `OrderService.create_order_from_cart`: run the checkout steps inside a
single transaction; an exception rolls the database back to the entry
state and propagates, success commits the mutated state. -/
def create_order_from_cart (db : DB) (user_id : ℕ)
    (stripe_payment_intent_id : Option String) (now : ℕ) :
    DB × Except String Order :=
  match checkoutSteps db user_id stripe_payment_intent_id now with
  | .error e => (db, .error e)
  | .ok (db', order) => (db', .ok order)

/-- Embeds `schemas/order.py`: `OrderItemResponse` (with the joined game title). -/
structure OrderItemResponse where
  id : ℕ
  game_id : ℕ
  game_title : String
  quantity : ℕ
  unit_price : ℚ
  subtotal : ℚ
deriving DecidableEq, Repr

/-- Embeds `schemas/order.py`: `OrderResponse`. -/
structure OrderResponse where
  id : ℕ
  user_id : ℕ
  subtotal : ℚ
  tax : ℚ
  total : ℚ
  status : OrderStatus
  stripe_payment_intent_id : Option String
  items : List OrderItemResponse
  created_at : ℕ
  completed_at : Option ℕ
deriving DecidableEq, Repr

/-- Embeds `OrderService._enrich_order`: build the response, reading each
`item.game.title` (the row must exist — the restrict-on-delete foreign key
guarantees it; a missing row would raise). -/
def enrich_order (db : DB) (o : Order) : Except String OrderResponse :=
  match o.items.mapM (fun item =>
      match findGame db item.game_id with
      | none => Except.error ("missing game " ++ toString item.game_id)
      | some g =>
          Except.ok { id := item.id, game_id := item.game_id,
                      game_title := g.title, quantity := item.quantity,
                      unit_price := item.unit_price,
                      subtotal := item.subtotal : OrderItemResponse }) with
  | .error e => .error e
  | .ok items =>
      .ok { id := o.id, user_id := o.user_id, subtotal := o.subtotal,
            tax := o.tax, total := o.total, status := o.status,
            stripe_payment_intent_id := o.stripe_payment_intent_id,
            items := items, created_at := o.created_at,
            completed_at := o.completed_at }

/-- Embeds `OrderService.get_order`: `None` when the order does not exist, and —
when a `user_id` is supplied — also when the order's owner differs;
otherwise the enriched response. -/
def get_order (db : DB) (order_id : ℕ) (user_id : Option ℕ) :
    Except String (Option OrderResponse) :=
  match findOrder db order_id with
  | none => .ok none
  | some o =>
      match user_id with
      | some uid =>
          if o.user_id ≠ uid then .ok none
          else (enrich_order db o).map some
      | none => (enrich_order db o).map some

/-! ## Upstream RAWG client (`clients/rawg/rawg_client.py`) -/

/-- Outcome of one HTTP attempt against the upstream provider. -/
inductive HttpOutcome where
  | response (status : ℕ) (body : String)
  | timeout
  | connectionError (msg : String)
deriving DecidableEq, Repr

/-- The client's error taxonomy: `RateLimitError` is a distinct subclass of
the base `RAWGAPIError`. -/
inductive RAWGError where
  | rateLimit (msg : String)
  | api (msg : String)
deriving DecidableEq, Repr

deriving instance DecidableEq for Except

/-- Result of `RAWGClient._request` together with its observable trace:
the parsed body or error, the backoff delays slept (in seconds, in order),
and the number of upstream calls made. -/
structure RequestTrace where
  result : Except RAWGError String
  delays : List ℕ
  calls : ℕ
deriving DecidableEq, Repr

/-- Embeds `RAWGClient._request`: the upstream is a function from the attempt
number (`retry_count`) to that attempt's outcome. 429 fails immediately
with `RateLimitError`; 5xx and timeouts retry with delay `2^retry_count`
while `retry_count < max_retries`, then fail with `RAWGAPIError`; other
4xx and connection errors fail immediately with `RAWGAPIError`. -/
def rawgRequest (server : ℕ → HttpOutcome) (max_retries : ℕ) :
    (retry_count : ℕ) → RequestTrace
  | retry_count =>
      match server retry_count with
      | .response status body =>
          if status == 429 then
            { result := .error (.rateLimit
                ("Rate limit de RAWG excedido (1000 req/hora). "
                  ++ "Intenta nuevamente más tarde.")),
              delays := [], calls := 1 }
          else if 500 ≤ status ∧ status < 600 then
            if h : retry_count < max_retries then
              let rest := rawgRequest server max_retries (retry_count + 1)
              { result := rest.result, delays := 2 ^ retry_count :: rest.delays,
                calls := rest.calls + 1 }
            else
              { result := .error (.api ("RAWG API error " ++ toString status
                  ++ " después de " ++ toString max_retries ++ " reintentos")),
                delays := [], calls := 1 }
          else if 400 ≤ status ∧ status < 500 then
            { result := .error (.api ("Error en request a RAWG: "
                ++ toString status ++ " - " ++ body)),
              delays := [], calls := 1 }
          else
            { result := .ok body, delays := [], calls := 1 }
      | .timeout =>
          if h : retry_count < max_retries then
            let rest := rawgRequest server max_retries (retry_count + 1)
            { result := rest.result, delays := 2 ^ retry_count :: rest.delays,
              calls := rest.calls + 1 }
          else
            { result := .error (.api ("Timeout en RAWG API después de "
                ++ toString max_retries ++ " reintentos")),
              delays := [], calls := 1 }
      | .connectionError msg =>
          { result := .error (.api ("Error de conexión con RAWG: " ++ msg)),
            delays := [], calls := 1 }
  termination_by retry_count => max_retries - retry_count

/-- Embeds `core/config.py`: `RAWG_MAX_RETRIES` default. -/
def RAWG_MAX_RETRIES : ℕ := 3

/-! ## Cache service (`services/cache_service.py`, `crud/cache_respository.py`) -/

/-- One cached key/value pair with its TTL (`none` = no expiration). -/
structure CacheEntry where
  key : String
  value : String
  ttl : Option ℕ
deriving DecidableEq, Repr

/-- Embeds `RedisCacheRepository.get`. -/
def cacheGet (cache : List CacheEntry) (key : String) : Option String :=
  (cache.find? (fun e => e.key == key)).map (fun e => e.value)

/-- Embeds `RedisCacheRepository.set` / `setex`: overwrite the key's value (and
TTL) if present, else add it. -/
def cacheSet : List CacheEntry → String → String → Option ℕ → List CacheEntry
  | [], key, value, ttl => [{ key := key, value := value, ttl := ttl }]
  | e :: rest, key, value, ttl =>
      if e.key == key then { e with value := value, ttl := ttl } :: rest
      else e :: cacheSet rest key value ttl

/-- State threaded through `CacheService.get_or_set`: the cache store plus
the environment `σ` the compute function may mutate (e.g. a counter). -/
structure CacheState (σ : Type) where
  cache : List CacheEntry
  env : σ

/-- Embeds `CacheService.get_or_set` over values of type `V` with serialization
`serialize`/`deserialize` (embedding `json.dumps`/`json.loads`). The
compute function `fetch` acts on its environment and may raise; a raised
error propagates and nothing is stored (no negative caching). The TTL used
on a miss is `ttl` when given, else `default_ttl`. -/
def get_or_set {σ V : Type} (serialize : V → String)
    (deserialize : String → V) (default_ttl : ℕ) (st : CacheState σ)
    (key : String) (fetch : σ → σ × Except String V) (ttl : Option ℕ) :
    CacheState σ × Except String V :=
  match cacheGet st.cache key with
  | some cached => (st, .ok (deserialize cached))
  | none =>
      let fr := fetch st.env
      match fr.2 with
      | .error e => ({ st with env := fr.1 }, .error e)
      | .ok v =>
          let ttl_to_use := some (ttl.getD default_ttl)
          ({ cache := cacheSet st.cache key (serialize v) ttl_to_use,
             env := fr.1 }, .ok v)

/-! ## Catalog enrichment (`services/game_catalog_service.py`) -/

/-- Embeds `schemas/rawg.py` `GameDetail`: the fields `get_product_enriched`
reads. Platforms and genres are optional lists (and may be `null`). -/
structure GameDetail where
  name : String
  slug : String
  description_raw : Option String
  background_image : Option String
  rating : Option ℚ
  released : Option String
  platforms : Option (List String)
  genres : Option (List String)
deriving DecidableEq, Repr

/-- Embeds `schemas/game_catalog.py`: `GameCatalogEnriched`. -/
structure GameCatalogEnriched where
  id : ℕ
  rawg_id : ℕ
  price : ℚ
  stock : ℤ
  in_stock : Bool
  name : String
  slug : String
  description : Option String
  background_image : Option String
  rating : Option ℚ
  released : Option String
  platforms : List String
  genres : List String
deriving DecidableEq, Repr

/-- Embeds `GameCatalogService.get_product_enriched`: `None` when the product is
not in the local catalog; otherwise call the RAWG client (its outcome is
the `rawgResult` argument) and on any `RAWGAPIError` — `RateLimitError`
included, being a subclass — fall back to the local snapshot with `rating`
and `released` set to `None` and empty `platforms`/`genres`. -/
def get_product_enriched (db : DB) (game_id : ℕ)
    (rawgResult : Except RAWGError GameDetail) : Option GameCatalogEnriched :=
  match findGame db game_id with
  | none => none
  | some game =>
      match rawgResult with
      | .error _ =>
          some { id := game.id, rawg_id := game.rawg_id, price := game.price,
                 stock := game.stock, in_stock := decide (0 < game.stock),
                 name := game.title, slug := game.slug,
                 description := game.description,
                 background_image := game.image_url, rating := none,
                 released := none, platforms := [], genres := [] }
      | .ok rg =>
          some { id := game.id, rawg_id := game.rawg_id, price := game.price,
                 stock := game.stock, in_stock := decide (0 < game.stock),
                 name := rg.name, slug := rg.slug,
                 description := rg.description_raw,
                 background_image := rg.background_image, rating := rg.rating,
                 released := rg.released,
                 platforms := rg.platforms.getD [],
                 genres := rg.genres.getD [] }

/-! ## Concrete sample data (used by witnesses) -/

/-- Product A of the spec's pricing scenario: price 59.99, stock 5. -/
def gameA : Game :=
  { id := 1, rawg_id := 11, title := "Alpha", slug := "alpha",
    description := none, image_url := none, price := 5999/100, stock := 5 }

/-- Product B of the spec's pricing scenario: price 39.99, stock 3. -/
def gameB : Game :=
  { id := 2, rawg_id := 22, title := "Beta", slug := "beta",
    description := none, image_url := none, price := 3999/100, stock := 3 }

/-- User 7's cart: 2 × product A, 1 × product B. -/
def cart1 : Cart :=
  { id := 1, user_id := 7, items :=
      [ { id := 1, cart_id := 1, game_id := 1, quantity := 2 },
        { id := 2, cart_id := 1, game_id := 2, quantity := 1 } ] }

/-- A small database: two products, one cart, no orders yet. -/
def db0 : DB :=
  { games := [gameA, gameB], carts := [cart1], orders := [],
    nextOrderId := 1, nextOrderItemId := 1 }


/-- An order already completed at time 1, owned by user 7. -/
def orderC : Order :=
  { id := 1, user_id := 7, subtotal := 100, tax := 10, total := 110,
    status := OrderStatus.paid, stripe_payment_intent_id := none,
    created_at := 0, completed_at := some 1, items := [] }

/-- A database holding just `orderC`. -/
def dbC : DB :=
  { games := [], carts := [], orders := [orderC], nextOrderId := 2,
    nextOrderItemId := 1 }

/-- A server answering 500, 500, then 200. -/
def server500x2 : ℕ → HttpOutcome := fun n =>
  if n < 2 then .response 500 "err" else .response 200 "okbody"

/-- Transient-failure outcomes the client retries: HTTP 5xx and request
timeouts. -/
def retryableOutcome : HttpOutcome → Prop
  | .response s _ => 500 ≤ s ∧ s < 600
  | .timeout => True
  | .connectionError _ => False

/-- A price exactly representable with 2 decimal places, as the
`Numeric(10,2)` columns are. -/
def TwoDecimal (p : ℚ) : Prop := ∃ c : ℤ, p = (c : ℚ) / 100

/-- A cart line whose product (when it exists) has insufficient stock —
the condition the validation loop of `create_order_from_cart` fails on. -/
def lineFails (db : DB) (item : CartItem) : Bool :=
  match findGame db item.game_id with
  | some g => decide (g.stock < (item.quantity : ℤ))
  | none => false

/-- A second cart (user 9) requesting more of product 1 than its stock. -/
def cartBig : Cart :=
  { id := 2, user_id := 9, items :=
      [ { id := 3, cart_id := 2, game_id := 1, quantity := 9 } ] }

/-- Database `db0` plus user 9's over-demanding cart. -/
def dbS : DB :=
  { games := [gameA, gameB], carts := [cart1, cartBig], orders := [],
    nextOrderId := 1, nextOrderItemId := 1 }

/-! ## Shared lemmas -/

theorem roundHalfEven_intCast (n : ℤ) : roundHalfEven (n : ℚ) = n := by
  simp [roundHalfEven]

theorem roundHalfEven_of_lt_half (q : ℚ) (f : ℤ) (h1 : (f : ℚ) ≤ q)
    (h2 : q - (f : ℚ) < 1/2) : roundHalfEven q = f := by
  have hf : ⌊q⌋ = f := by
    rw [Int.floor_eq_iff]
    · exact ⟨h1, by linarith⟩
  simp only [roundHalfEven, hf]
  rw [if_pos h2]

theorem roundHalfEven_of_half_lt (q : ℚ) (f : ℤ) (h1 : 1/2 < q - (f : ℚ))
    (h2 : q < (f : ℚ) + 1) : roundHalfEven q = f + 1 := by
  have hf : ⌊q⌋ = f := by
    rw [Int.floor_eq_iff]
    · exact ⟨by linarith, by linarith⟩
  simp only [roundHalfEven, hf]
  rw [if_neg (by linarith), if_pos h1]

theorem round2_cent (c : ℤ) : round2 ((c : ℚ) / 100) = (c : ℚ) / 100 := by
  have h : ((c : ℚ) / 100) * 100 = (c : ℚ) := by field_simp
  rw [round2, h, roundHalfEven_intCast]

theorem mem_updateGame_games (db : DB) (g x : Game)
    (hx : x ∈ (updateGame db g).games) : x = g ∨ x ∈ db.games := by
  simp only [updateGame, List.mem_map] at hx
  obtain ⟨y, hy, hxy⟩ := hx
  by_cases h : (y.id == g.id) = true
  · left; rw [← hxy, if_pos h]
  · right; rw [← hxy, if_neg h]; exact hy

theorem findGame_congr (db db' : DB) (h : db'.games = db.games) (i : ℕ) :
    findGame db' i = findGame db i := by
  unfold findGame; rw [h]

theorem findOrder_congr (db db' : DB) (h : db'.orders = db.orders) (i : ℕ) :
    findOrder db' i = findOrder db i := by
  unfold findOrder; rw [h]

theorem findGame_id (db : DB) (i : ℕ) (g : Game)
    (h : findGame db i = some g) : g.id = i := by
  have := List.find?_some h
  simpa using this

theorem findGame_mem (db : DB) (i : ℕ) (g : Game)
    (h : findGame db i = some g) : g ∈ db.games :=
  List.mem_of_find?_eq_some h

/-! ## C1 -/

/-- C1: checkout atomicity. If `create_order_from_cart` fails for any
reason, the resulting database has the same order rows, the same product
rows (hence every stock), and the same carts as before the attempt. -/
theorem c1_checkout_atomicity (db : DB) (user_id : ℕ) (spi : Option String)
    (now : ℕ) (e : String)
    (h : (create_order_from_cart db user_id spi now).2 = .error e) :
    (create_order_from_cart db user_id spi now).1.orders = db.orders ∧
    (create_order_from_cart db user_id spi now).1.games = db.games ∧
    (create_order_from_cart db user_id spi now).1.carts = db.carts := by
  cases hc : checkoutSteps db user_id spi now with
  | error e' => simp [create_order_from_cart, hc]
  | ok p => simp [create_order_from_cart, hc] at h

/-- C1 witness: user 8 has no cart in `db0`, so checkout fails and the
database is untouched. -/
theorem c1_checkout_atomicity_witness :
    (create_order_from_cart db0 8 none 0).1.orders = db0.orders ∧
    (create_order_from_cart db0 8 none 0).1.games = db0.games ∧
    (create_order_from_cart db0 8 none 0).1.carts = db0.carts :=
  c1_checkout_atomicity db0 8 none 0 "El carrito está vacío" rfl

/-! ## C4 -/

/-- C4: the stock invariant. For an existing product, `reduce_stock` fails
with the insufficient-stock `ValueError` (carrying title, available and
requested) exactly when `stock < quantity`, and otherwise decrements stock
by exactly the requested quantity, preserving non-negativity of every
stock; `increase_stock` adds the quantity (also preserving the invariant);
both return `none` — their only other failure mode — exactly on a missing
product; and a whole checkout preserves the invariant as well. -/
theorem c4_stock_nonneg (db : DB) (gid q : ℕ) (g : Game)
    (hfind : findGame db gid = some g)
    (hnn : ∀ x ∈ db.games, 0 ≤ x.stock) :
    (g.stock < (q : ℤ) →
      reduce_stock db gid q = .error ("Stock insuficiente para " ++ g.title
        ++ ". Disponible: " ++ toString g.stock ++ ", Solicitado: "
        ++ toString q)) ∧
    (¬ g.stock < (q : ℤ) →
      reduce_stock db gid q =
        .ok (updateGame db { g with stock := g.stock - (q : ℤ) },
             some { g with stock := g.stock - (q : ℤ) }) ∧
      ∀ x ∈ (updateGame db { g with stock := g.stock - (q : ℤ) }).games,
        0 ≤ x.stock) ∧
    (increase_stock db gid q =
        (updateGame db { g with stock := g.stock + (q : ℤ) },
         some { g with stock := g.stock + (q : ℤ) }) ∧
      ∀ x ∈ (updateGame db { g with stock := g.stock + (q : ℤ) }).games,
        0 ≤ x.stock) ∧
    (∀ gid', findGame db gid' = none →
      reduce_stock db gid' q = .ok (db, none) ∧
      increase_stock db gid' q = (db, none)) := by
  have hg : g ∈ db.games := findGame_mem db gid g hfind
  have hg0 : 0 ≤ g.stock := hnn g hg
  refine ⟨?_, ?_, ?_, ?_⟩
  · intro hlt
    simp [reduce_stock, hfind, hlt]
  · intro hge
    refine ⟨by simp [reduce_stock, hfind, hge], ?_⟩
    intro x hx
    rcases mem_updateGame_games _ _ _ hx with h | h
    · rw [h]; simp; omega
    · exact hnn x h
  · refine ⟨by simp [increase_stock, hfind], ?_⟩
    intro x hx
    rcases mem_updateGame_games _ _ _ hx with h | h
    · rw [h]; simp; omega
    · exact hnn x h
  · intro gid' hnone
    exact ⟨by simp [reduce_stock, hnone], by simp [increase_stock, hnone]⟩

/-- C4 witness: product 1 of `db0` (stock 5): requesting 7 fails with the
exact message, requesting 2 decrements to 3, increasing works, a missing
product id yields `none`. -/
theorem c4_stock_nonneg_witness :
    (gameA.stock < (7 : ℤ) →
      reduce_stock db0 1 7 = .error ("Stock insuficiente para "
        ++ gameA.title ++ ". Disponible: " ++ toString gameA.stock
        ++ ", Solicitado: " ++ toString (7 : ℕ))) ∧
    (¬ gameA.stock < (7 : ℤ) →
      reduce_stock db0 1 7 =
        .ok (updateGame db0 { gameA with stock := gameA.stock - (7 : ℤ) },
             some { gameA with stock := gameA.stock - (7 : ℤ) }) ∧
      ∀ x ∈ (updateGame db0
          { gameA with stock := gameA.stock - (7 : ℤ) }).games,
        0 ≤ x.stock) ∧
    (increase_stock db0 1 7 =
        (updateGame db0 { gameA with stock := gameA.stock + (7 : ℤ) },
         some { gameA with stock := gameA.stock + (7 : ℤ) }) ∧
      ∀ x ∈ (updateGame db0
          { gameA with stock := gameA.stock + (7 : ℤ) }).games,
        0 ≤ x.stock) ∧
    (∀ gid', findGame db0 gid' = none →
      reduce_stock db0 gid' 7 = .ok (db0, none) ∧
      increase_stock db0 gid' 7 = (db0, none)) :=
  c4_stock_nonneg db0 1 7 gameA rfl (by decide)

/-! ## C5 -/

/-- C5 (code bug): `PostgresOrderRepository.update_status` does NOT set the
completion timestamp exactly once. On `dbC`, whose order 1 already has
`completed_at = some 1`, a second `COMPLETED` update at time 2 overwrites
the timestamp to `some 2`; the in-memory repository used by the test suite
(`tests/fakes.py`) keeps the original `some 1` on the same input. -/
theorem c5_completed_at_overwritten :
    ((update_status dbC 1 OrderStatus.completed 2).2.map
        (fun o => o.completed_at)) = some (some 2) ∧
    ((update_status_fake dbC 1 OrderStatus.completed 2).2.map
        (fun o => o.completed_at)) = some (some 1) ∧
    (findOrder (update_status dbC 1 OrderStatus.completed 2).1 1).map
        (fun o => o.completed_at) = some (some 2) := by
  refine ⟨rfl, rfl, rfl⟩

/-! ## C9 -/

/-- C9: ownership isolation. If the order does not exist, or exists but is
owned by a different user, `get_order` returns `None`, and the response is
identical to the response for any nonexistent order id. -/
theorem c9_ownership_isolation (db : DB) (order_id uid : ℕ)
    (h : findOrder db order_id = none ∨
         ∃ o, findOrder db order_id = some o ∧ o.user_id ≠ uid) :
    get_order db order_id (some uid) = .ok none ∧
    ∀ missing_id, findOrder db missing_id = none →
      get_order db order_id (some uid) = get_order db missing_id (some uid) := by
  have hres : get_order db order_id (some uid) = .ok none := by
    rcases h with h | ⟨o, ho, hne⟩
    · simp [get_order, h]
    · simp [get_order, ho, hne]
  refine ⟨hres, ?_⟩
  intro missing_id hm
  rw [hres]
  simp [get_order, hm]

/-- C9 witness: order 1 of `dbC` belongs to user 7; user 9's request for
it equals the request for the nonexistent order 55. -/
theorem c9_ownership_isolation_witness :
    get_order dbC 1 (some 9) = .ok none ∧
    ∀ missing_id, findOrder dbC missing_id = none →
      get_order dbC 1 (some 9) = get_order dbC missing_id (some 9) :=
  c9_ownership_isolation dbC 1 9 (Or.inr ⟨orderC, rfl, by decide⟩)

/-! ## C10 -/

/-- C10: for a product present in the local catalog, any upstream error
(rate limiting included) makes `get_product_enriched` return the degraded
response built from the local snapshot — title, slug, description, image,
price, stock — with `rating` and `released` set to `none` and empty
platform and genre lists, instead of propagating the error. -/
theorem c10_degraded_fallback (db : DB) (gid : ℕ) (e : RAWGError) (g : Game)
    (hfind : findGame db gid = some g) :
    get_product_enriched db gid (.error e) =
      some { id := g.id, rawg_id := g.rawg_id, price := g.price,
             stock := g.stock, in_stock := decide (0 < g.stock),
             name := g.title, slug := g.slug, description := g.description,
             background_image := g.image_url, rating := none,
             released := none, platforms := [], genres := [] } := by
  simp [get_product_enriched, hfind]

/-- C10 witness: product 1 of `db0` under a rate-limit failure. -/
theorem c10_degraded_fallback_witness :
    get_product_enriched db0 1 (.error (.rateLimit ("quota"))) =
      some { id := gameA.id, rawg_id := gameA.rawg_id, price := gameA.price,
             stock := gameA.stock, in_stock := decide (0 < gameA.stock),
             name := gameA.title, slug := gameA.slug,
             description := gameA.description,
             background_image := gameA.image_url, rating := none,
             released := none, platforms := [], genres := [] } :=
  c10_degraded_fallback db0 1 (.rateLimit ("quota")) gameA rfl

/-! ## C7 -/

/-- C7: non-retryable upstream failures. A 429 on the first attempt fails
immediately after exactly one upstream call with the distinct
`RateLimitError` (which is never equal to a generic `RAWGAPIError`); any
other 4xx fails immediately after exactly one call with a generic
`RAWGAPIError` carrying the status code and the response body. Neither
performs a retry (no backoff delay is slept). -/
theorem c7_non_retryable (server : ℕ → HttpOutcome) (max_retries : ℕ)
    (status : ℕ) (body : String)
    (hresp : server 0 = .response status body) :
    (status = 429 →
      rawgRequest server max_retries 0 =
        { result := .error (.rateLimit
            ("Rate limit de RAWG excedido (1000 req/hora). "
              ++ "Intenta nuevamente más tarde.")),
          delays := [], calls := 1 }) ∧
    (400 ≤ status → status < 500 → status ≠ 429 →
      rawgRequest server max_retries 0 =
        { result := .error (.api ("Error en request a RAWG: "
            ++ toString status ++ " - " ++ body)),
          delays := [], calls := 1 }) ∧
    (∀ m m', RAWGError.rateLimit m ≠ RAWGError.api m') := by
  refine ⟨?_, ?_, ?_⟩
  · intro h429
    subst h429
    rw [rawgRequest, hresp]
    simp
  · intro h400 h500 h429
    rw [rawgRequest, hresp]
    have h1 : (status == 429) = false := by simp [h429]
    have h2 : ¬ (500 ≤ status ∧ status < 600) := by omega
    have h3 : 400 ≤ status ∧ status < 500 := ⟨h400, h500⟩
    simp [h1, h2, h3]
  · intro m m' h
    exact RAWGError.noConfusion h

/-- C7 witness: a server answering 429 and a server answering 404. -/
theorem c7_non_retryable_witness :
    rawgRequest (fun _ => .response 429 "limit") 3 0 =
      { result := .error (.rateLimit
          ("Rate limit de RAWG excedido (1000 req/hora). "
            ++ "Intenta nuevamente más tarde.")),
        delays := [], calls := 1 } ∧
    rawgRequest (fun _ => .response 404 "missing") 3 0 =
      { result := .error (.api ("Error en request a RAWG: "
          ++ toString (404 : ℕ) ++ " - " ++ "missing")),
        delays := [], calls := 1 } :=
  ⟨(c7_non_retryable (fun _ => .response 429 "limit") 3 429 "limit" rfl).1 rfl,
   (c7_non_retryable (fun _ => .response 404 "missing") 3 404 "missing"
      rfl).2.1 (by decide) (by decide) (by decide)⟩

/-! ## C8 -/

theorem cacheGet_cacheSet (cache : List CacheEntry) (key value : String)
    (ttl : Option ℕ) :
    cacheGet (cacheSet cache key value ttl) key = some value := by
  induction cache with
  | nil => simp [cacheSet, cacheGet]
  | cons e rest ih =>
      by_cases h : (e.key == key) = true
      · simp [cacheSet, h, cacheGet]
      · simp only [cacheSet, h, if_false, Bool.false_eq_true]
        simp only [cacheGet, List.find?_cons, h]
        exact ih

/-- C8: cache-aside computes once and never caches errors. On a miss the
compute function runs once, its result is stored serialized under the key,
and a second `get_or_set` for the key — with any compute function at all —
returns the cached value and leaves the state (compute environment
included) untouched; if the compute function fails, the error propagates
and the cache is unchanged. -/
theorem c8_cache_compute_once {σ V : Type} (serialize : V → String)
    (deserialize : String → V) (default_ttl : ℕ) (st : CacheState σ)
    (key : String) (ttl : Option ℕ)
    (hmiss : cacheGet st.cache key = none) :
    (∀ (fetch : σ → σ × Except String V) env' v,
      fetch st.env = (env', .ok v) →
      get_or_set serialize deserialize default_ttl st key fetch ttl =
        (⟨cacheSet st.cache key (serialize v) (some (ttl.getD default_ttl)),
          env'⟩, .ok v) ∧
      ∀ (fetch' : σ → σ × Except String V) (ttl' : Option ℕ),
        get_or_set serialize deserialize default_ttl
            ⟨cacheSet st.cache key (serialize v)
              (some (ttl.getD default_ttl)), env'⟩ key fetch' ttl' =
          (⟨cacheSet st.cache key (serialize v)
              (some (ttl.getD default_ttl)), env'⟩,
           .ok (deserialize (serialize v)))) ∧
    (∀ (fetch : σ → σ × Except String V) env' err,
      fetch st.env = (env', .error err) →
      get_or_set serialize deserialize default_ttl st key fetch ttl =
        ({ st with env := env' }, .error err)) := by
  constructor
  · intro fetch env' v hfetch
    constructor
    · simp [get_or_set, hmiss, hfetch]
    · intro fetch' ttl'
      simp [get_or_set, cacheGet_cacheSet]
  · intro fetch env' err hfetch
    simp [get_or_set, hmiss, hfetch]

/-- C8 witness: an empty cache, a counter starting at 0 and a compute
function incrementing it. After the first call the counter is 1 and the
value is stored; the second call (same compute function available again)
returns the cached value and the counter stays 1. -/
theorem c8_cache_compute_once_witness :
    get_or_set toString String.length 86400
        (⟨[], 0⟩ : CacheState ℕ) "rawg:game:1"
        (fun n => (n + 1, .ok n)) none =
      (⟨[{ key := "rawg:game:1", value := "0", ttl := some 86400 }], 1⟩,
       .ok 0) ∧
    get_or_set toString String.length 86400
        (⟨[{ key := "rawg:game:1", value := "0", ttl := some 86400 }], 1⟩ :
          CacheState ℕ) "rawg:game:1" (fun n => (n + 1, .ok n)) none =
      (⟨[{ key := "rawg:game:1", value := "0", ttl := some 86400 }], 1⟩,
       .ok 1) := by
  have h := (c8_cache_compute_once toString String.length 86400
      (⟨[], 0⟩ : CacheState ℕ) "rawg:game:1" none rfl).1
      (fun n => (n + 1, .ok n)) 1 0 rfl
  constructor
  · simpa [cacheSet] using h.1
  · have h2 := h.2 (fun n => (n + 1, .ok n)) none
    simpa [cacheSet] using h2

/-! ## C6 -/

theorem rawgRequest_exhaust_aux (server : ℕ → HttpOutcome)
    (max_retries : ℕ) :
    ∀ gas r, max_retries - r = gas → r ≤ max_retries →
      (∀ n, r ≤ n → n ≤ max_retries → retryableOutcome (server n)) →
      ∃ msg, rawgRequest server max_retries r =
        { result := .error (.api msg),
          delays := (List.range (max_retries - r)).map (fun i => 2 ^ (r + i)),
          calls := max_retries - r + 1 } := by
  intro gas
  induction gas with
  | zero =>
      intro r hgas hr hall
      have hrm : r = max_retries := by omega
      have hret := hall r le_rfl hr
      cases hs : server r with
      | response s body =>
          rw [hs] at hret
          obtain ⟨h5, h6⟩ := hret
          have h429 : (s == 429) = false := by
            simp only [beq_eq_false_iff_ne, ne_eq]; omega
          refine ⟨"RAWG API error " ++ toString s ++ " después de "
            ++ toString max_retries ++ " reintentos", ?_⟩
          rw [rawgRequest, hs]
          simp [h429, h5, h6, hgas, hrm]
      | timeout =>
          refine ⟨"Timeout en RAWG API después de "
            ++ toString max_retries ++ " reintentos", ?_⟩
          rw [rawgRequest, hs]
          simp [hgas, hrm]
      | connectionError msg =>
          rw [hs] at hret
          exact absurd hret not_false
  | succ k ih =>
      intro r hgas hr hall
      have hlt : r < max_retries := by omega
      have hret := hall r le_rfl hr
      obtain ⟨msg, hrec⟩ := ih (r + 1) (by omega) (by omega)
        (fun n hn hn' => hall n (by omega) hn')
      have hdelays :
          (List.range (max_retries - r)).map (fun i => 2 ^ (r + i)) =
            2 ^ r :: (List.range (max_retries - (r + 1))).map
              (fun i => 2 ^ (r + 1 + i)) := by
        have h1 : max_retries - r = (max_retries - (r + 1)) + 1 := by omega
        rw [h1, List.range_succ_eq_map, List.map_cons, List.map_map]
        refine congrArg₂ _ (by simp) ?_
        refine List.map_congr_left ?_
        intro i _
        simp [Function.comp]
        ring_nf
      cases hs : server r with
      | response s body =>
          rw [hs] at hret
          obtain ⟨h5, h6⟩ := hret
          have h429 : (s == 429) = false := by
            simp only [beq_eq_false_iff_ne, ne_eq]; omega
          refine ⟨msg, ?_⟩
          rw [rawgRequest, hs]
          simp only [h429, Bool.false_eq_true, if_false, h5, h6, and_self,
            if_true, hlt, dif_pos]
          rw [hrec]
          simp [hdelays]
          omega
      | timeout =>
          refine ⟨msg, ?_⟩
          rw [rawgRequest, hs]
          simp only [hlt, dif_pos]
          rw [hrec]
          simp [hdelays]
          omega
      | connectionError m =>
          rw [hs] at hret
          exact absurd hret not_false

/-- C6: retry with exponential backoff. A server that fails transiently
(5xx or timeout) on every attempt makes the client perform exactly
`max_retries + 1` upstream calls with backoff delays `2^attempt` seconds
(1s, 2s, 4s, …) between them, then fail with a generic upstream
`RAWGAPIError`; and the server that returns 500 twice and then 200, under
the default `RAWG_MAX_RETRIES = 3`, produces exactly 3 upstream calls,
delays of 1s then 2s, and a successful result. -/
theorem c6_retry_backoff :
    (∀ (server : ℕ → HttpOutcome) (max_retries : ℕ),
      (∀ n, n ≤ max_retries → retryableOutcome (server n)) →
      ∃ msg, rawgRequest server max_retries 0 =
        { result := .error (.api msg),
          delays := (List.range max_retries).map (fun i => 2 ^ i),
          calls := max_retries + 1 }) ∧
    rawgRequest server500x2 RAWG_MAX_RETRIES 0 =
      { result := .ok ("okbody"), delays := [1, 2], calls := 3 } := by
  constructor
  · intro server max_retries hall
    obtain ⟨msg, h⟩ := rawgRequest_exhaust_aux server max_retries
      (max_retries - 0) 0 rfl (Nat.zero_le _)
      (fun n hn hn' => hall n hn')
    refine ⟨msg, ?_⟩
    simpa using h
  · simp [rawgRequest, server500x2, RAWG_MAX_RETRIES]

/-- C6 witness: a server that always times out, with 2 retries allowed,
makes 3 calls with delays 1s and 2s and fails with an upstream error. -/
theorem c6_retry_backoff_witness :
    ∃ msg, rawgRequest (fun _ => HttpOutcome.timeout) 2 0 =
      { result := .error (.api msg), delays := [1, 2], calls := 3 } := by
  obtain ⟨msg, h⟩ := c6_retry_backoff.1 (fun _ => HttpOutcome.timeout) 2
    (fun n _ => trivial)
  exact ⟨msg, by simpa using h⟩

/-! ## C3 -/

theorem lineTotals_spec (db : DB) (items : List CartItem)
    (hall : ∀ item ∈ items, ∃ g, findGame db item.game_id = some g ∧
      TwoDecimal g.price) :
    ∃ (S : ℚ) (c : ℤ),
      lineTotals db items = .ok (S, S * TAX_RATE) ∧ S = (c : ℚ) / 100 := by
  induction items with
  | nil => exact ⟨0, 0, by simp [lineTotals], by simp⟩
  | cons item rest ih =>
      obtain ⟨g, hg, c0, hc0⟩ := hall item (by simp)
      obtain ⟨S, c, hok, hSc⟩ := ih (fun i hi => hall i (by simp [hi]))
      refine ⟨(item.quantity : ℚ) * g.price + S,
        (item.quantity : ℤ) * c0 + c, ?_, ?_⟩
      · simp only [lineTotals, hg, hok]
        refine congrArg _ (Prod.ext rfl ?_)
        simp only
        ring
      · rw [hc0, hSc]; push_cast; ring

theorem mkOrderItems_ok (db : DB) (orderId : ℕ) (items : List CartItem)
    (hall : ∀ item ∈ items, ∃ g, findGame db item.game_id = some g) :
    ∀ baseId, ∃ its, mkOrderItems db orderId baseId items = .ok its := by
  induction items with
  | nil => exact fun baseId => ⟨[], rfl⟩
  | cons item rest ih =>
      intro baseId
      obtain ⟨g, hg⟩ := hall item (by simp)
      obtain ⟨its, hits⟩ := ih (fun i hi => hall i (by simp [hi])) (baseId + 1)
      refine ⟨{ id := baseId, order_id := orderId, game_id := item.game_id,
                quantity := item.quantity, unit_price := g.price,
                subtotal := (item.quantity : ℚ) * g.price } :: its, ?_⟩
      simp [mkOrderItems, hg, hits]

theorem create_from_cart_spec (db : DB) (user_id : ℕ)
    (items : List CartItem) (spi : Option String) (now : ℕ)
    (hall : ∀ item ∈ items, ∃ g, findGame db item.game_id = some g ∧
      TwoDecimal g.price) :
    ∃ db' o S, lineTotals db items = .ok (S, S * TAX_RATE) ∧
      create_from_cart db user_id items spi now = .ok (db', o) ∧
      o.subtotal = round2 S ∧ round2 S = S ∧
      o.tax = round2 (o.subtotal * TAX_RATE) ∧
      o.total = o.subtotal + o.tax ∧
      o.user_id = user_id ∧
      db'.games = db.games ∧ db'.carts = db.carts ∧
      db'.orders = db.orders ++ [o] := by
  obtain ⟨S, c, hlt, hSc⟩ := lineTotals_spec db items hall
  obtain ⟨its, hits⟩ := mkOrderItems_ok db db.nextOrderId items
    (fun i hi => (hall i hi).imp (fun g hg => hg.1)) db.nextOrderItemId
  have hround : round2 S = S := by rw [hSc]; exact round2_cent c
  have heq : create_from_cart db user_id items spi now =
      Except.ok
        ({ db with
            orders := db.orders ++
              [{ id := db.nextOrderId, user_id := user_id,
                 subtotal := round2 S, tax := round2 (S * TAX_RATE),
                 total := round2 S + round2 (S * TAX_RATE),
                 status := OrderStatus.pending,
                 stripe_payment_intent_id := spi, created_at := now,
                 completed_at := none, items := its }],
            nextOrderId := db.nextOrderId + 1,
            nextOrderItemId := db.nextOrderItemId + items.length },
         { id := db.nextOrderId, user_id := user_id,
           subtotal := round2 S, tax := round2 (S * TAX_RATE),
           total := round2 S + round2 (S * TAX_RATE),
           status := OrderStatus.pending,
           stripe_payment_intent_id := spi, created_at := now,
           completed_at := none, items := its }) := by
    simp only [create_from_cart, hlt, hits]
  refine ⟨_, _, S, hlt, heq, rfl, hround, ?_, rfl, rfl, rfl, rfl, rfl⟩
  show round2 (S * TAX_RATE) = round2 (round2 S * TAX_RATE)
  rw [hround]

/-- C3: the pricing rule. For any cart whose products exist with 2-decimal
prices, the created order satisfies: subtotal is the (rounded, hence — the
sum of 2-decimal lines being 2-decimal — exact) sum of quantity × unit
price; tax is subtotal × the fixed 10 % `TAX_RATE` rounded to 2 decimals
independently; total is subtotal + tax with no further rounding. For the
spec's concrete cart (59.99 × 2 and 39.99 × 1) this gives subtotal 159.97,
tax 16.00, total 175.97. -/
theorem c3_pricing (db : DB) (user_id : ℕ) (items : List CartItem)
    (spi : Option String) (now : ℕ)
    (hall : ∀ item ∈ items, ∃ g, findGame db item.game_id = some g ∧
      TwoDecimal g.price) :
    (∃ db' o S, lineTotals db items = .ok (S, S * TAX_RATE) ∧
      create_from_cart db user_id items spi now = .ok (db', o) ∧
      o.subtotal = round2 S ∧ round2 S = S ∧
      o.tax = round2 (o.subtotal * TAX_RATE) ∧
      o.total = o.subtotal + o.tax) ∧
    (∃ db' o, create_from_cart db0 7 cart1.items none 0 = .ok (db', o) ∧
      o.subtotal = 15997/100 ∧ o.tax = 16 ∧ o.total = 17597/100) := by
  constructor
  · obtain ⟨db', o, S, h1, h2, h3, h4, h5, h6, _⟩ :=
      create_from_cart_spec db user_id items spi now hall
    exact ⟨db', o, S, h1, h2, h3, h4, h5, h6⟩
  · have hall0 : ∀ item ∈ cart1.items,
        ∃ g, findGame db0 item.game_id = some g ∧ TwoDecimal g.price := by
      intro item hi
      simp only [cart1, List.mem_cons, List.not_mem_nil, or_false] at hi
      rcases hi with h | h
      · exact ⟨gameA, by subst h; rfl, 5999, by norm_num [gameA]⟩
      · exact ⟨gameB, by subst h; rfl, 3999, by norm_num [gameB]⟩
    obtain ⟨db', o, S, h1, h2, h3, h4, h5, h6, _⟩ :=
      create_from_cart_spec db0 7 cart1.items none 0 hall0
    have hSval : S = 15997/100 := by
      have hcalc : lineTotals db0 cart1.items =
          .ok ((15997 : ℚ)/100, (15997 : ℚ)/100 * TAX_RATE) := by
        simp [lineTotals, cart1, db0, findGame, gameA, gameB, TAX_RATE]
        norm_num
      have hpair := Except.ok.inj (h1.symm.trans hcalc)
      exact congrArg Prod.fst hpair
    have hsub : o.subtotal = 15997/100 := by rw [h3, h4, hSval]
    refine ⟨db', o, h2, hsub, ?_, ?_⟩
    · rw [h5, hsub]
      have harg : (15997 : ℚ)/100 * TAX_RATE = 15997/1000 := by
        norm_num [TAX_RATE]
      rw [harg]
      have h1599 : roundHalfEven ((15997 : ℚ)/1000 * 100) = 1600 := by
        have := roundHalfEven_of_half_lt ((15997 : ℚ)/1000 * 100) 1599
          (by norm_num) (by norm_num)
        simpa using this
      rw [round2, h1599]
      norm_num
    · rw [h6, hsub, h5, hsub]
      have harg : (15997 : ℚ)/100 * TAX_RATE = 15997/1000 := by
        norm_num [TAX_RATE]
      rw [harg]
      have h1599 : roundHalfEven ((15997 : ℚ)/1000 * 100) = 1600 := by
        have := roundHalfEven_of_half_lt ((15997 : ℚ)/1000 * 100) 1599
          (by norm_num) (by norm_num)
        simpa using this
      rw [round2, h1599]
      norm_num

/-- C3 witness: the general clause applied to `db0` and user 7's cart. -/
theorem c3_pricing_witness :
    ∃ db' o S, lineTotals db0 cart1.items = .ok (S, S * TAX_RATE) ∧
      create_from_cart db0 7 cart1.items none 0 = .ok (db', o) ∧
      o.subtotal = round2 S ∧ round2 S = S ∧
      o.tax = round2 (o.subtotal * TAX_RATE) ∧
      o.total = o.subtotal + o.tax := by
  refine (c3_pricing db0 7 cart1.items none 0 ?_).1
  intro item hi
  simp only [cart1, List.mem_cons, List.not_mem_nil, or_false] at hi
  rcases hi with h | h
  · exact ⟨gameA, by subst h; rfl, 5999, by norm_num [gameA]⟩
  · exact ⟨gameB, by subst h; rfl, 3999, by norm_num [gameB]⟩

/-! ## C2 -/

theorem validateStock_error (db : DB) :
    ∀ (items : List CartItem) (item0 : CartItem) (g0 : Game),
      (∀ item ∈ items, ∃ g, findGame db item.game_id = some g) →
      items.find? (lineFails db) = some item0 →
      findGame db item0.game_id = some g0 →
      validateStock db items =
        .error ("Stock insuficiente para " ++ g0.title ++ ". Disponible: "
          ++ toString g0.stock ++ ", En carrito: "
          ++ toString item0.quantity) := by
  intro items
  induction items with
  | nil => intro item0 g0 _ hfind _; simp at hfind
  | cons x rest ih =>
      intro item0 g0 hall hfind hg0
      obtain ⟨g, hg⟩ := hall x (by simp)
      by_cases hx : lineFails db x = true
      · have hx0 : item0 = x := by
          rw [List.find?_cons_of_pos _ hx] at hfind
          exact (Option.some.inj hfind).symm
        subst hx0
        have hgg : g = g0 := by rw [hg] at hg0; exact Option.some.inj hg0
        subst hgg
        have hlt : g.stock < (item0.quantity : ℤ) := by
          simpa [lineFails, hg] using hx
        simp only [validateStock, hg]
        rw [if_pos hlt]
      · have hxf : lineFails db x = false := by
          simpa using hx
        rw [List.find?_cons_of_neg _ (by simp [hxf])] at hfind
        have hnlt : ¬ g.stock < (x.quantity : ℤ) := by
          simpa [lineFails, hg] using hxf
        simp only [validateStock, hg]
        rw [if_neg hnlt]
        exact ih item0 g0 (fun i hi => hall i (by simp [hi])) hfind hg0

theorem validateStock_ok (db : DB) :
    ∀ items : List CartItem,
      (∀ item ∈ items, ∃ g, findGame db item.game_id = some g) →
      items.find? (lineFails db) = none →
      validateStock db items = .ok () := by
  intro items
  induction items with
  | nil => intro _ _; rfl
  | cons x rest ih =>
      intro hall hfind
      obtain ⟨g, hg⟩ := hall x (by simp)
      rw [List.find?_eq_none] at hfind
      have hxf : lineFails db x = false := by
        have := hfind x (by simp)
        simpa using this
      have hnlt : ¬ g.stock < (x.quantity : ℤ) := by
        simpa [lineFails, hg] using hxf
      simp only [validateStock, hg]
      rw [if_neg hnlt]
      exact ih (fun i hi => hall i (by simp [hi]))
        (List.find?_eq_none.mpr (fun i hi => hfind i (by simp [hi])))

theorem find?_update_ne (g' : Game) (j : ℕ) (h : (g'.id == j) = false) :
    ∀ l : List Game,
      (l.map (fun x => if x.id == g'.id then g' else x)).find?
          (fun x => x.id == j) =
        l.find? (fun x => x.id == j) := by
  intro l
  induction l with
  | nil => rfl
  | cons x rest ih =>
      by_cases hx : (x.id == g'.id) = true
      · have hxid : x.id = g'.id := by simpa using hx
        have hxj : (x.id == j) = false := by
          simp only [beq_eq_false_iff_ne] at h ⊢
          rw [hxid]; exact h
        simp only [List.map_cons, if_pos hx]
        rw [List.find?_cons_of_neg _ (by simp [h]),
          List.find?_cons_of_neg _ (by simp [hxj])]
        exact ih
      · have hxf : (x.id == g'.id) = false := by simpa using hx
        simp only [List.map_cons, hxf, Bool.false_eq_true, if_false]
        by_cases hxj : (x.id == j) = true
        · rw [List.find?_cons_of_pos _ (by simp [hxj]),
            List.find?_cons_of_pos _ (by simp [hxj])]
        · have hxjf : (x.id == j) = false := by simpa using hxj
          rw [List.find?_cons_of_neg _ (by simp [hxjf]),
            List.find?_cons_of_neg _ (by simp [hxjf])]
          exact ih

theorem findGame_updateGame_ne (db : DB) (g' : Game) (j : ℕ)
    (h : ¬ g'.id = j) :
    findGame (updateGame db g') j = findGame db j := by
  unfold findGame updateGame
  exact find?_update_ne g' j (by simpa using h) db.games

theorem reduceAll_ok :
    ∀ (items : List CartItem) (db : DB),
      (∀ item ∈ items, ∃ g, findGame db item.game_id = some g ∧
        (item.quantity : ℤ) ≤ g.stock) →
      (items.map (fun i => i.game_id)).Pairwise (· ≠ ·) →
      ∃ db2, reduceAll db items = .ok db2 := by
  intro items
  induction items with
  | nil => exact fun db _ _ => ⟨db, rfl⟩
  | cons x rest ih =>
      intro db hall hdist
      obtain ⟨g, hg, hle⟩ := hall x (by simp)
      have hnlt : ¬ g.stock < (x.quantity : ℤ) := not_lt.mpr hle
      have hgid : g.id = x.game_id := findGame_id db x.game_id g hg
      rw [List.map_cons, List.pairwise_cons] at hdist
      obtain ⟨hx_ne, hdist'⟩ := hdist
      have hgames : ∀ i ∈ rest,
          findGame (updateGame db { g with stock := g.stock - (x.quantity : ℤ) })
              i.game_id =
            findGame db i.game_id := by
        intro i hi
        refine findGame_updateGame_ne db _ i.game_id ?_
        show ¬ g.id = i.game_id
        rw [hgid]
        exact hx_ne i.game_id (List.mem_map_of_mem _ hi)
      obtain ⟨db2, h2⟩ := ih
        (updateGame db { g with stock := g.stock - (x.quantity : ℤ) })
        (fun i hi => by
          rw [hgames i hi]
          exact hall i (by simp [hi]))
        hdist'
      refine ⟨db2, ?_⟩
      simp only [reduceAll, reduce_stock, hg]
      rw [if_neg hnlt]
      exact h2

theorem lineTotals_isOk (db : DB) :
    ∀ items : List CartItem,
      (∀ item ∈ items, ∃ g, findGame db item.game_id = some g) →
      ∃ pr, lineTotals db items = .ok pr := by
  intro items
  induction items with
  | nil => exact fun _ => ⟨(0, 0), rfl⟩
  | cons x rest ih =>
      intro hall
      obtain ⟨g, hg⟩ := hall x (by simp)
      obtain ⟨⟨S, T⟩, hrest⟩ := ih (fun i hi => hall i (by simp [hi]))
      exact ⟨((x.quantity : ℚ) * g.price + S,
              (x.quantity : ℚ) * g.price * TAX_RATE + T),
        by simp only [lineTotals, hg, hrest]⟩

theorem create_from_cart_isOk (db : DB) (user_id : ℕ)
    (items : List CartItem) (spi : Option String) (now : ℕ)
    (hall : ∀ item ∈ items, ∃ g, findGame db item.game_id = some g) :
    ∃ db1 o, create_from_cart db user_id items spi now = .ok (db1, o) ∧
      db1.games = db.games := by
  obtain ⟨⟨S, T⟩, hlt⟩ := lineTotals_isOk db items hall
  obtain ⟨its, hits⟩ := mkOrderItems_ok db db.nextOrderId items hall
    db.nextOrderItemId
  refine ⟨{ db with
      orders := db.orders ++
        [{ id := db.nextOrderId, user_id := user_id,
           subtotal := round2 S, tax := round2 T,
           total := round2 S + round2 T,
           status := OrderStatus.pending,
           stripe_payment_intent_id := spi, created_at := now,
           completed_at := none, items := its }],
      nextOrderId := db.nextOrderId + 1,
      nextOrderItemId := db.nextOrderItemId + items.length },
    { id := db.nextOrderId, user_id := user_id,
      subtotal := round2 S, tax := round2 T,
      total := round2 S + round2 T,
      status := OrderStatus.pending,
      stripe_payment_intent_id := spi, created_at := now,
      completed_at := none, items := its }, ?_, rfl⟩
  simp only [create_from_cart, hlt, hits]

/-- C2: checkout failure conditions. (a) An absent or empty cart yields
the empty-cart `ValueError` with the database untouched. (b) A cart whose
first failing line (in cart-line order) is `item0` with product `g0`
yields the insufficient-stock `ValueError` naming that product with its
available stock and requested quantity, database untouched. (c) A
non-empty cart all of whose lines reference existing, distinct products
with sufficient stock yields a created order. -/
theorem c2_checkout_failure_conditions (db : DB) (user_id : ℕ)
    (spi : Option String) (now : ℕ) :
    ((findCart db user_id = none ∨
        ∃ cart, findCart db user_id = some cart ∧ cart.items = []) →
      create_order_from_cart db user_id spi now =
        (db, .error ("El carrito está vacío"))) ∧
    (∀ cart item0 g0,
      findCart db user_id = some cart →
      (∀ item ∈ cart.items, ∃ g, findGame db item.game_id = some g) →
      cart.items.find? (lineFails db) = some item0 →
      findGame db item0.game_id = some g0 →
      create_order_from_cart db user_id spi now =
        (db, .error ("Stock insuficiente para " ++ g0.title
          ++ ". Disponible: " ++ toString g0.stock ++ ", En carrito: "
          ++ toString item0.quantity))) ∧
    (∀ cart,
      findCart db user_id = some cart → cart.items ≠ [] →
      (∀ item ∈ cart.items, ∃ g, findGame db item.game_id = some g) →
      cart.items.find? (lineFails db) = none →
      (cart.items.map (fun i => i.game_id)).Pairwise (· ≠ ·) →
      ∃ db' o, create_order_from_cart db user_id spi now = (db', .ok o)) := by
  refine ⟨?_, ?_, ?_⟩
  · rintro (hnone | ⟨cart, hcart, hempty⟩)
    · simp [create_order_from_cart, checkoutSteps, hnone]
    · simp [create_order_from_cart, checkoutSteps, hcart, hempty]
  · intro cart item0 g0 hcart hall hfind hg0
    have hne : cart.items.isEmpty = false := by
      cases h : cart.items with
      | nil => rw [h] at hfind; simp at hfind
      | cons a l => simp
    have hval := validateStock_error db cart.items item0 g0 hall hfind hg0
    simp [create_order_from_cart, checkoutSteps, hcart, hne, hval]
  · intro cart hcart hne hall hfind hdist
    have hne' : cart.items.isEmpty = false := by
      cases h : cart.items with
      | nil => exact absurd h hne
      | cons a l => simp
    have hval := validateStock_ok db cart.items hall hfind
    obtain ⟨db1, o, hcfc, hgames⟩ :=
      create_from_cart_isOk db user_id cart.items spi now hall
    have hfails : ∀ item ∈ cart.items, lineFails db item = false := by
      intro i hi
      have := List.find?_eq_none.mp hfind i hi
      simpa using this
    obtain ⟨db2, hred⟩ := reduceAll_ok cart.items db1
      (fun i hi => by
        obtain ⟨g, hg⟩ := hall i hi
        refine ⟨g, ?_, ?_⟩
        · rw [findGame_congr db db1 hgames]; exact hg
        · have := hfails i hi
          simp only [lineFails, hg, decide_eq_false_iff_not, not_lt] at this
          exact this)
      hdist
    refine ⟨clear_cart db2 user_id, o, ?_⟩
    simp [create_order_from_cart, checkoutSteps, hcart, hne', hval, hcfc, hred]

/-- C2 witness: user 8 (no cart) hits the empty-cart error; user 9 (wants
9 of product 1, stock 5) hits the insufficient-stock error naming product
1; user 7's cart checks out. -/
theorem c2_checkout_failure_conditions_witness :
    create_order_from_cart db0 8 none 0 =
      (db0, .error ("El carrito está vacío")) ∧
    create_order_from_cart dbS 9 none 0 =
      (dbS, .error ("Stock insuficiente para " ++ gameA.title
        ++ ". Disponible: " ++ toString gameA.stock ++ ", En carrito: "
        ++ toString (9 : ℕ))) ∧
    ∃ db' o, create_order_from_cart db0 7 none 0 = (db', .ok o) := by
  refine ⟨?_, ?_, ?_⟩
  · exact (c2_checkout_failure_conditions db0 8 none 0).1 (Or.inl rfl)
  · refine (c2_checkout_failure_conditions dbS 9 none 0).2.1 cartBig
      { id := 3, cart_id := 2, game_id := 1, quantity := 9 } gameA rfl
      ?_ rfl rfl
    intro item hi
    simp only [cartBig, List.mem_cons, List.not_mem_nil, or_false] at hi
    exact ⟨gameA, by subst hi; rfl⟩
  · refine (c2_checkout_failure_conditions db0 7 none 0).2.2 cart1 rfl
      (by simp [cart1]) ?_ rfl (by simp [cart1])
    intro item hi
    simp only [cart1, List.mem_cons, List.not_mem_nil, or_false] at hi
    rcases hi with h | h
    · exact ⟨gameA, by subst h; rfl⟩
    · exact ⟨gameB, by subst h; rfl⟩

end GameStore
